import Mathlib

/-!
Shallow embedding of the transactional stock ledger of
`firebase_utils.py` (Rapi Tienda Acuarela inventory app).

Modelling conventions:
* Firestore documents are records of optional fields (a Python dict may
  lack any key); `d.get(k, dflt)` becomes `field.getD dflt`.
* Collections are association lists keyed by document id; `history` is a
  separate association list keyed by the owning inventory item id, since
  in Firestore a sub-collection outlives its parent document.
* A Firestore transaction reads the pre-transaction snapshot and stages
  writes that are applied atomically on commit (staged writes to the same
  document compose left to right, so the last staged field value wins);
  a raised `ValueError` aborts the transaction, leaving the store intact.
  The embedding makes this explicit: the `_atomic` functions take the
  store and return `Except errorMessage (newStore, message, alerts)`, and
  the public wrappers return the untouched store on error.
* `datetime.now(timezone.utc)` is an abstract tick `now : Nat` supplied by
  the caller; monetary values are `ℚ`; quantities are `Int`.
-/

namespace Rapitienda

/-- A `history` sub-collection document (see `history_data` dicts in the
source).  `quantity_change` is optional because `save_inventory_item`
stores `data.get('quantity')`, which may be `None`. -/
structure HistoryEntry where
  timestamp : Nat
  type : String
  quantity_change : Option Int
  details : String
deriving Repr, DecidableEq

/-- An `inventory/{itemId}` document with the fields the ledger reads. -/
structure InventoryItem where
  name : Option String
  quantity : Option Int
  sale_price : Option ℚ
  purchase_price : Option ℚ
  min_stock_alert : Option Int
deriving Repr, DecidableEq

/-- A line-item dict: an element of an order's `ingredients` list or of
the `items_sold` input of `_process_direct_sale_atomic`.  The `id` and
`quantity` keys are accessed with `[]` in the source (mandatory); the
price fields are whatever the caller attached (the ledger never reads
them when processing a sale). -/
structure Ingredient where
  id : String
  name : Option String
  quantity : Int
  sale_price : Option ℚ
  purchase_price : Option ℚ
deriving Repr, DecidableEq

/-- An `orders/{orderId}` document. -/
structure Order where
  title : Option String
  price : Option ℚ
  ingredients : List Ingredient
  status : Option String
  timestamp : Option Nat
  completed_at : Option Nat
  payment_method : Option String
  customer_name : Option String
  is_direct_sale : Option Bool
deriving Repr, DecidableEq

/-- The `{'method': …, 'customer': …}` payment dict. -/
structure Payment where
  method : Option String
  customer : Option String
deriving Repr, DecidableEq

/-- The document store: the three collections the ledger touches. -/
structure Store where
  inventory : List (String × InventoryItem)
  history : List (String × List HistoryEntry)
  orders : List (String × Order)
deriving Repr, DecidableEq

/-- Fetch a document by id (first match in the association list). -/
def getDoc {α : Type} : List (String × α) → String → Option α
  | [], _ => none
  | (k, v) :: rest, k2 => if k = k2 then some v else getDoc rest k2

/-- Overwrite a document (replace the first binding, or create it). -/
def setDoc {α : Type} : List (String × α) → String → α → List (String × α)
  | [], k2, v2 => [(k2, v2)]
  | (k, v) :: rest, k2, v2 =>
    if k = k2 then (k2, v2) :: rest else (k, v) :: setDoc rest k2 v2

/-- Update an existing document in place (no-op when absent), as
`transaction.update` requires the document to exist. -/
def updateDoc {α : Type} : List (String × α) → String → (α → α) → List (String × α)
  | [], _, _ => []
  | (k, v) :: rest, k2, f =>
    if k = k2 then (k2, f v) :: rest else (k, v) :: updateDoc rest k2 f

/-- Delete a document: afterwards no binding for the id remains (document
ids are unique in a Firestore collection). -/
def removeDoc {α : Type} : List (String × α) → String → List (String × α)
  | [], _ => []
  | (k, v) :: rest, k2 =>
    if k = k2 then removeDoc rest k2 else (k, v) :: removeDoc rest k2

/-- The `history` sub-collection of item `id` (empty when none exists). -/
def getHist (s : Store) (id : String) : List HistoryEntry :=
  (getDoc s.history id).getD []

/-- Append one history document (a `.document()` / `.add` with a fresh
auto-generated id, so it never overwrites an existing entry). -/
def appendHist (s : Store) (id : String) (e : HistoryEntry) : Store :=
  { s with history := setDoc s.history id (getHist s id ++ [e]) }

/-- Python `str` of an optional string, as interpolated by an f-string
(`None` prints as "None"). -/
def optStr (o : Option String) : String :=
  match o with
  | some s => s
  | none => "None"

/-- Python `str` of an optional integer, as interpolated by an f-string. -/
def optIntStr (o : Option Int) : String :=
  match o with
  | some n => toString n
  | none => "None"

/-- The low-stock test shared verbatim by both transactional functions:
`if min_stock_alert and 0 < new_quantity <= min_stock_alert`.  A missing
or zero `min_stock_alert` is falsy in Python. -/
def low_stock_condition (item_data : InventoryItem) (new_quantity : Int) : Bool :=
  match item_data.min_stock_alert with
  | none => false
  | some m => decide (m ≠ 0) && (decide (0 < new_quantity) && decide (new_quantity ≤ m))

/-- One element of the `items_to_update` staging list built by the
validation pass of both transactional functions. -/
structure ItemUpdate where
  ref : String
  new_quantity : Int
  item_data : InventoryItem
  ing_quantity : Int
deriving Repr, DecidableEq

/-- Validation pass of `_complete_order_atomic` (source lines 29-50): for
each ingredient read the inventory document, fail when it is missing or
has insufficient stock, otherwise stage an update record. -/
def check_order_items (db : Store) : List Ingredient → Except String (List ItemUpdate)
  | [] => Except.ok []
  | ing :: rest =>
    match getDoc db.inventory ing.id with
    | none =>
      Except.error ("Producto '" ++ optStr ing.name ++ "' ya no existe en inventario.")
    | some item_data =>
      let current_quantity := item_data.quantity.getD 0
      if current_quantity < ing.quantity then
        Except.error ("Stock insuficiente para '" ++ optStr ing.name ++
          "'. Disponible: " ++ toString current_quantity)
      else
        match check_order_items db rest with
        | Except.error e => Except.error e
        | Except.ok rest2 =>
          Except.ok ({ ref := ing.id,
                       new_quantity := current_quantity - ing.quantity,
                       item_data := item_data,
                       ing_quantity := ing.quantity } :: rest2)

/-- Alert string built at source line 71 (`_complete_order_atomic`). -/
def complete_alert_msg (item_data : InventoryItem) (new_quantity : Int) : String :=
  "'" ++ optStr item_data.name ++ "' ha alcanzado el umbral de stock mínimo (" ++
    toString new_quantity ++ "/" ++ optIntStr item_data.min_stock_alert ++ ")."

/-- Alert string built at source line 144 (`_process_direct_sale_atomic`). -/
def direct_alert_msg (item_data : InventoryItem) (new_quantity : Int) : String :=
  "'" ++ optStr item_data.name ++ "' bajo stock (" ++ toString new_quantity ++
    "/" ++ optIntStr item_data.min_stock_alert ++ ")."

/-- Write-staging loop shared by `_complete_order_atomic` (lines 55-71)
and `_process_direct_sale_atomic` (lines 130-144), which are identical up
to the history `type`/`details` strings and the alert message: set the new
quantity, append one history document with `quantity_change = -ing_quantity`,
and collect a low-stock alert when the shared condition holds. -/
def apply_stock_updates (mkAlert : InventoryItem → Int → String) (now : Nat)
    (htype hdetails : String) :
    Store → List String → List ItemUpdate → Store × List String
  | s, alerts, [] => (s, alerts)
  | s, alerts, u :: rest =>
    let s1 : Store :=
      { s with inventory :=
          updateDoc s.inventory u.ref (fun it => { it with quantity := some u.new_quantity }) }
    let entry : HistoryEntry :=
      { timestamp := now, type := htype,
        quantity_change := some (-u.ing_quantity), details := hdetails }
    let s2 := appendHist s1 u.ref entry
    let alerts2 :=
      if low_stock_condition u.item_data u.new_quantity then
        alerts ++ [mkAlert u.item_data u.new_quantity]
      else alerts
    apply_stock_updates mkAlert now htype hdetails s2 alerts2 rest

/-- Embedding of `_complete_order_atomic` (source lines 15-79): read the
order, validate every ingredient against the snapshot, stage quantity
updates and history appends, mark the order `completed`. -/
def _complete_order_atomic (db : Store) (order_id : String) (now : Nat) :
    Except String (Store × String × List String) :=
  match getDoc db.orders order_id with
  | none => Except.error "La venta/pedido no existe."
  | some order_data =>
    match check_order_items db order_data.ingredients with
    | Except.error e => Except.error e
    | Except.ok items_to_update =>
      let r := apply_stock_updates complete_alert_msg now "Venta Completada"
        ("Venta ID: " ++ order_id) db [] items_to_update
      let s2 : Store :=
        { r.1 with orders :=
            (updateDoc r.1.orders order_id
              (fun o => { o with status := some "completed", completed_at := some now })) }
      Except.ok (s2,
        "Venta '" ++ optStr order_data.title ++ "' finalizada correctamente.",
        r.2)

/-- Embedding of `FirebaseManager.complete_order` (source lines 316-322):
run the transaction; on any raised error the transaction aborts (store
unchanged) and the wrapper returns `(False, "Error transacción: …", [])`. -/
def complete_order (db : Store) (order_id : String) (now : Nat) :
    Store × (Bool × String × List String) :=
  match _complete_order_atomic db order_id now with
  | Except.ok (s, msg, alerts) => (s, (true, msg, alerts))
  | Except.error e => (db, (false, "Error transacción: " ++ e, []))

/-- The three accumulators of the validation pass of
`_process_direct_sale_atomic`: `items_to_update`, `enriched_ingredients`
and `total_price`. -/
structure DirectPrep where
  items_to_update : List ItemUpdate
  enriched_ingredients : List Ingredient
  total_price : ℚ
deriving Repr, DecidableEq

/-- Validation pass of `_process_direct_sale_atomic` (source lines
91-125): per sold item, read the snapshot, fail when missing or
insufficient, otherwise stage the update, accumulate the line total
computed from the store's prices, and build the enriched line item.  The
caller-attached price fields of `sold_item` are never read. -/
def check_sold_items (db : Store) (acc : DirectPrep) :
    List Ingredient → Except String DirectPrep
  | [] => Except.ok acc
  | sold_item :: rest =>
    match getDoc db.inventory sold_item.id with
    | none =>
      Except.error ("Producto '" ++ optStr sold_item.name ++ "' no encontrado en BD.")
    | some item_data =>
      let current_quantity := item_data.quantity.getD 0
      if current_quantity < sold_item.quantity then
        Except.error ("Stock insuficiente para '" ++ optStr sold_item.name ++ "'.")
      else
        let new_quantity := current_quantity - sold_item.quantity
        let sale_price := item_data.sale_price.getD 0
        let purchase_price := item_data.purchase_price.getD 0
        let line_total := sale_price * (sold_item.quantity : ℚ)
        check_sold_items db
          { items_to_update := acc.items_to_update ++
              [{ ref := sold_item.id, new_quantity := new_quantity,
                 item_data := item_data, ing_quantity := sold_item.quantity }],
            enriched_ingredients := acc.enriched_ingredients ++
              [{ id := sold_item.id, name := item_data.name,
                 quantity := sold_item.quantity,
                 sale_price := some sale_price,
                 purchase_price := some purchase_price }],
            total_price := acc.total_price + line_total } rest

/-- Embedding of `_process_direct_sale_atomic` (source lines 81-162):
validate and price every sold item from the store snapshot, stage the
stock updates and history appends, then create the completed order
document in the same transaction. -/
def _process_direct_sale_atomic (db : Store) (items_sold : List Ingredient)
    (sale_id : String) (payment_data : Payment) (now : Nat) :
    Except String (Store × String × List String) :=
  match check_sold_items db ⟨[], [], 0⟩ items_sold with
  | Except.error e => Except.error e
  | Except.ok prep =>
    let r := apply_stock_updates direct_alert_msg now "Venta Directa"
      ("ID Venta: " ++ sale_id) db [] prep.items_to_update
    let order_data : Order :=
      { title := some ("Venta Directa " ++ (sale_id.splitOn "-").getLastD ""),
        price := some prep.total_price,
        ingredients := prep.enriched_ingredients,
        status := some "completed",
        timestamp := some now,
        completed_at := some now,
        payment_method := some (payment_data.method.getD "efectivo"),
        customer_name := some (payment_data.customer.getD "Cliente General"),
        is_direct_sale := some true }
    let s2 : Store := { r.1 with orders := setDoc r.1.orders sale_id order_data }
    Except.ok (s2, "Venta registrada. Total: " ++ toString prep.total_price, r.2)

/-- Embedding of `FirebaseManager.process_direct_sale` (source lines
324-337): default payment data, run the transaction, and on any raised
error return the untouched store with `(False, "Error al procesar venta: …", [])`. -/
def process_direct_sale (db : Store) (items_sold : List Ingredient)
    (sale_id : String) (payment_data : Option Payment) (now : Nat) :
    Store × (Bool × String × List String) :=
  let pd := payment_data.getD { method := some "efectivo", customer := some "Cliente General" }
  match _process_direct_sale_atomic db items_sold sale_id pd now with
  | Except.ok (s, msg, alerts) => (s, (true, msg, alerts))
  | Except.error e => (db, (false, "Error al procesar venta: " ++ e, []))

/-- Embedding of `FirebaseManager.save_inventory_item` (source lines
205-216): `doc_ref.set(data, merge=True)` merges the given fields over
the existing document (creating it when absent), then exactly one history
document is added whose `quantity_change` is `data.get('quantity')`.  The
embedding models one successful attempt of the retry-wrapped call. -/
def save_inventory_item (s : Store) (data : InventoryItem) (custom_id : String)
    (is_new : Bool) (details : Option String) (now : Nat) : Store :=
  let merged : InventoryItem :=
    match getDoc s.inventory custom_id with
    | none => data
    | some old =>
      { name := data.name.orElse (fun _ => old.name),
        quantity := data.quantity.orElse (fun _ => old.quantity),
        sale_price := data.sale_price.orElse (fun _ => old.sale_price),
        purchase_price := data.purchase_price.orElse (fun _ => old.purchase_price),
        min_stock_alert := data.min_stock_alert.orElse (fun _ => old.min_stock_alert) }
  let s1 : Store := { s with inventory := setDoc s.inventory custom_id merged }
  let history_type := if is_new then "Stock Inicial" else "Ajuste Manual"
  let details2 := details.getD
    (if is_new then "Item creado en el sistema." else "Item actualizado manualmente.")
  appendHist s1 custom_id
    { timestamp := now, type := history_type,
      quantity_change := data.quantity, details := details2 }

/-- Embedding of `FirebaseManager._delete_collection_batch` (source lines
228-238) at its only call site's `batch_size = 20`: stream the first 20
documents of the sub-collection; when non-empty delete them in one batch
commit; recurse while a full page was deleted.  Returns the number of
batch commits issued and the remaining documents. -/
def _delete_collection_batch (docs : List HistoryEntry) : Nat × List HistoryEntry :=
  if h : 20 ≤ (docs.take 20).length then
    let r := _delete_collection_batch (docs.drop 20)
    (r.1 + 1, r.2)
  else if 0 < (docs.take 20).length then (1, docs.drop 20)
  else (0, docs)
termination_by docs.length
decreasing_by
  simp only [List.length_take, List.length_drop] at h ⊢
  omega

/-- Embedding of `FirebaseManager.delete_inventory_item` (source lines
218-226): delete the `history` sub-collection in batches of 20, then
delete the item document.  Returns the new store and the number of
history-deletion batch commits issued. -/
def delete_inventory_item (s : Store) (doc_id : String) : Store × Nat :=
  let r := _delete_collection_batch (getHist s doc_id)
  ({ s with history := setDoc s.history doc_id r.2,
            inventory := removeDoc s.inventory doc_id }, r.1)

/-- A Python exception as seen by a caller of the retry wrapper: either an
exception raised by the wrapped operation, or the `RuntimeError` that a
bare `raise` statement produces when no exception is being handled. -/
inductive PyExc where
  | userExc (msg : String)
  | noActiveException
deriving Repr, DecidableEq

/-- The `for attempt in range(max_retries)` loop of `firestore_retry`
(source lines 164-177).  The wrapped call's behaviour is a function from
the attempt index to its outcome.  Each failed attempt sleeps `delay`
(recorded in the returned list) and doubles it.  When the loop exhausts
its three attempts the source executes a bare `raise` outside any
`except` block; at that point the last exception has been cleared, so
Python raises `RuntimeError: No active exception to re-raise` — modelled
as `PyExc.noActiveException`.  Also returns the list of attempt indices
actually invoked. -/
def retry_loop {α : Type} (f : Nat → Except String α) :
    Nat → Nat → Nat → List Nat → List Nat → (Except PyExc α × List Nat × List Nat)
  | _, 0, _, sleeps, calls => (Except.error PyExc.noActiveException, sleeps, calls)
  | attempt, remaining + 1, delay, sleeps, calls =>
    match f attempt with
    | Except.ok a => (Except.ok a, sleeps, calls ++ [attempt])
    | Except.error _ =>
      retry_loop f (attempt + 1) remaining (delay * 2) (sleeps ++ [delay]) (calls ++ [attempt])

/-- Embedding of `firestore_retry` (source lines 164-177): `max_retries = 3`,
initial `delay = 1`. -/
def firestore_retry {α : Type} (f : Nat → Except String α) :
    Except PyExc α × List Nat × List Nat :=
  retry_loop f 0 3 1 [] []

/-- A stock-affecting operation, for stating the history-sum invariant
over operation sequences. -/
inductive Op where
  | saveItem (data : InventoryItem) (custom_id : String) (is_new : Bool)
      (details : Option String) (now : Nat)
  | completeOrder (order_id : String) (now : Nat)
  | directSale (items_sold : List Ingredient) (sale_id : String)
      (payment : Option Payment) (now : Nat)

/-- Apply one operation to the store (failed transactions leave it
unchanged, as their wrappers return the original store). -/
def applyOp (s : Store) (o : Op) : Store :=
  match o with
  | Op.saveItem data cid n det now => save_inventory_item s data cid n det now
  | Op.completeOrder oid now => (complete_order s oid now).1
  | Op.directSale items sid pay now => (process_direct_sale s items sid pay now).1

/-- Apply a sequence of operations left to right. -/
def applyOps (s : Store) (ops : List Op) : Store :=
  ops.foldl applyOp s

/-- Sum of `quantity_change` over an item's history (a missing
`quantity_change` counts as 0). -/
def histSumAt (s : Store) (id : String) : Int :=
  ((getHist s id).map (fun e => e.quantity_change.getD 0)).sum

/-- The item's current quantity as the ledger reads it
(`item_data.get('quantity', 0)`; 0 when the document is absent). -/
def currentOf (s : Store) (id : String) : Int :=
  match getDoc s.inventory id with
  | some it => it.quantity.getD 0
  | none => 0

/-- The item's sale price as the ledger reads it
(`item_data.get('sale_price', 0.0)`). -/
def salePriceOf (s : Store) (id : String) : ℚ :=
  match getDoc s.inventory id with
  | some it => it.sale_price.getD 0
  | none => 0

/-- The item's purchase price as the ledger reads it
(`item_data.get('purchase_price', 0.0)`). -/
def purchasePriceOf (s : Store) (id : String) : ℚ :=
  match getDoc s.inventory id with
  | some it => it.purchase_price.getD 0
  | none => 0

/-- The item document as read by a successful validation pass (the
default is never reached when validation succeeded). -/
def itemOf (s : Store) (id : String) : InventoryItem :=
  (getDoc s.inventory id).getD ⟨none, none, none, none, none⟩

/-- `True` when the operation touches the item `id`'s stock at most once:
a save to a different document, or a sale whose line-item list mentions
`id` at most once (for `completeOrder`, the list of the order currently
stored).  Operation sequences satisfying this per step keep the
history-sum invariant. -/
def touchesAtMostOnce (s : Store) (o : Op) (id : String) : Bool :=
  match o with
  | Op.saveItem _ cid _ _ _ => cid ≠ id
  | Op.completeOrder oid _ =>
    match getDoc s.orders oid with
    | none => true
    | some ord => (ord.ingredients.filter (fun ing => ing.id = id)).length ≤ 1
  | Op.directSale items _ _ _ => (items.filter (fun ing => ing.id = id)).length ≤ 1

/-- `touchesAtMostOnce` holding at every step of an execution. -/
def safeOps (s : Store) (id : String) : List Op → Bool
  | [] => true
  | o :: rest => touchesAtMostOnce s o id && safeOps (applyOp s o) id rest

/-- Sum of `quantity_change` over every history sub-collection of a
history table. -/
def histTotal (l : List (String × List HistoryEntry)) : Int :=
  (l.map (fun p => ((p.2.map (fun e => e.quantity_change.getD 0)).sum))).sum

/-- Total history sum across all items (used to measure the entries newly
appended by one call). -/
def totalHistSum (s : Store) : Int :=
  histTotal s.history

/-- Net effect of a list of staged quantity writes on one document: each
matching staged write overwrites the `quantity` field, so the last one
wins. -/
def applyQ (o : Option InventoryItem) (ups : List ItemUpdate) (id : String) :
    Option InventoryItem :=
  ups.foldl
    (fun acc u =>
      if u.ref = id then acc.map (fun it => { it with quantity := some u.new_quantity })
      else acc) o

/-- The staging record a successful validation builds for one line item. -/
def stagedUpdateOf (s : Store) (ing : Ingredient) : ItemUpdate :=
  { ref := ing.id,
    new_quantity := currentOf s ing.id - ing.quantity,
    item_data := itemOf s ing.id,
    ing_quantity := ing.quantity }

/-- The enriched line item a successful direct-sale validation builds:
store-authoritative prices, the caller's price fields discarded. -/
def enrichedOf (s : Store) (ing : Ingredient) : Ingredient :=
  { id := ing.id,
    name := (itemOf s ing.id).name,
    quantity := ing.quantity,
    sale_price := some (salePriceOf s ing.id),
    purchase_price := some (purchasePriceOf s ing.id) }

/-- The specification's alert condition, stated independently of the
source: an alert fires iff `0 < newQuantity <= minStockAlert` and
`minStockAlert > 0` (unset or zero threshold disables alerting). -/
def spec_alert_condition (min_stock_alert : Option Int) (newQuantity : Int) : Bool :=
  match min_stock_alert with
  | none => false
  | some m => decide (0 < newQuantity) && (decide (newQuantity ≤ m) && decide (0 < m))

/-! ### Association-list lemmas -/

theorem getDoc_setDoc_self {α : Type} (l : List (String × α)) (k : String) (v : α) :
    getDoc (setDoc l k v) k = some v := by
  induction l with
  | nil => simp [setDoc, getDoc]
  | cons p rest ih =>
    by_cases h : p.1 = k
    · simp [setDoc, h, getDoc]
    · simp [setDoc, h, getDoc, ih]

theorem getDoc_setDoc_ne {α : Type} (l : List (String × α)) (k k2 : String) (v : α)
    (h : k ≠ k2) : getDoc (setDoc l k v) k2 = getDoc l k2 := by
  induction l with
  | nil => simp [setDoc, getDoc, h]
  | cons p rest ih =>
    obtain ⟨k1, v1⟩ := p
    by_cases h1 : k1 = k
    · subst h1
      simp [setDoc, getDoc, h]
    · by_cases h2 : k1 = k2 <;> simp [setDoc, getDoc, h1, h2, ih, Ne.symm h]

theorem getDoc_updateDoc_self {α : Type} (l : List (String × α)) (k : String)
    (f : α → α) : getDoc (updateDoc l k f) k = (getDoc l k).map f := by
  induction l with
  | nil => simp [updateDoc, getDoc]
  | cons p rest ih =>
    by_cases h : p.1 = k
    · simp [updateDoc, h, getDoc]
    · simp [updateDoc, h, getDoc, ih]

theorem getDoc_updateDoc_ne {α : Type} (l : List (String × α)) (k k2 : String)
    (f : α → α) (h : k ≠ k2) : getDoc (updateDoc l k f) k2 = getDoc l k2 := by
  induction l with
  | nil => simp [updateDoc, getDoc]
  | cons p rest ih =>
    obtain ⟨k1, v1⟩ := p
    by_cases h1 : k1 = k
    · subst h1
      simp [updateDoc, getDoc, h]
    · by_cases h2 : k1 = k2 <;> simp [updateDoc, getDoc, h1, h2, ih, Ne.symm h]

theorem getDoc_removeDoc_self {α : Type} (l : List (String × α)) (k : String) :
    getDoc (removeDoc l k) k = none := by
  induction l with
  | nil => simp [removeDoc, getDoc]
  | cons p rest ih =>
    by_cases h : p.1 = k
    · simp [removeDoc, h, ih]
    · simp [removeDoc, h, getDoc, ih]

theorem getHist_appendHist_self (s : Store) (k : String) (e : HistoryEntry) :
    getHist (appendHist s k e) k = getHist s k ++ [e] := by
  simp [appendHist, getHist, getDoc_setDoc_self]

theorem getHist_appendHist_ne (s : Store) (k k2 : String) (e : HistoryEntry)
    (h : k ≠ k2) : getHist (appendHist s k e) k2 = getHist s k2 := by
  simp [appendHist, getHist, getDoc_setDoc_ne _ _ _ _ h]

theorem appendHist_inventory (s : Store) (k : String) (e : HistoryEntry) :
    (appendHist s k e).inventory = s.inventory := rfl

theorem appendHist_orders (s : Store) (k : String) (e : HistoryEntry) :
    (appendHist s k e).orders = s.orders := rfl

theorem histTotal_setDoc_append (l : List (String × List HistoryEntry))
    (k : String) (e : HistoryEntry) :
    histTotal (setDoc l k ((getDoc l k).getD [] ++ [e])) =
      histTotal l + e.quantity_change.getD 0 := by
  induction l with
  | nil => simp [setDoc, getDoc, histTotal]
  | cons p rest ih =>
    obtain ⟨k1, h1⟩ := p
    by_cases hk : k1 = k
    · subst hk
      simp [setDoc, getDoc, histTotal]
      ring
    · have hg : getDoc ((k1, h1) :: rest) k = getDoc rest k := by
        simp [getDoc, hk]
      rw [hg]
      simp only [setDoc, if_neg hk]
      simp only [histTotal, List.map_cons, List.sum_cons] at ih ⊢
      omega

theorem totalHistSum_appendHist (s : Store) (k : String) (e : HistoryEntry) :
    totalHistSum (appendHist s k e) = totalHistSum s + e.quantity_change.getD 0 := by
  simp [totalHistSum, appendHist, getHist, histTotal_setDoc_append]

/-! ### Effect of the write-staging loop -/

theorem applyQ_nil (o : Option InventoryItem) (id : String) : applyQ o [] id = o := rfl

theorem applyQ_no_match (o : Option InventoryItem) (ups : List ItemUpdate) (id : String)
    (h : ∀ u ∈ ups, u.ref ≠ id) : applyQ o ups id = o := by
  induction ups generalizing o with
  | nil => rfl
  | cons u rest ih =>
    have hu : u.ref ≠ id := h u (by simp)
    simp only [applyQ, List.foldl_cons, if_neg hu]
    exact ih o (fun v hv => h v (by simp [hv]))

theorem applyQ_single (o : Option InventoryItem) (ups : List ItemUpdate) (id : String)
    (u : ItemUpdate) (h : ups.filter (fun v => v.ref = id) = [u]) :
    applyQ o ups id = o.map (fun it => { it with quantity := some u.new_quantity }) := by
  induction ups generalizing o with
  | nil => simp [List.filter] at h
  | cons v rest ih =>
    by_cases hv : v.ref = id
    · rw [List.filter_cons_of_pos (by simpa using hv)] at h
      obtain ⟨hvu, hrest⟩ := List.cons_eq_cons.mp h
      subst hvu
      have hnone : ∀ w ∈ rest, w.ref ≠ id := by
        intro w hw hwid
        have : w ∈ rest.filter (fun v2 => v2.ref = id) :=
          List.mem_filter.mpr ⟨hw, by simpa using hwid⟩
        simp [hrest] at this
      simp only [applyQ, List.foldl_cons, if_pos hv]
      exact applyQ_no_match _ rest id hnone
    · rw [List.filter_cons_of_neg (by simpa using hv)] at h
      simp only [applyQ, List.foldl_cons, if_neg hv]
      exact ih o h

theorem apply_stock_updates_orders (mk : InventoryItem → Int → String) (now : Nat)
    (t d : String) (s : Store) (al : List String) (ups : List ItemUpdate) :
    (apply_stock_updates mk now t d s al ups).1.orders = s.orders := by
  induction ups generalizing s al with
  | nil => rfl
  | cons u rest ih => simpa [apply_stock_updates, appendHist] using ih _ _

theorem apply_stock_updates_inventory (mk : InventoryItem → Int → String) (now : Nat)
    (t d : String) (s : Store) (al : List String) (ups : List ItemUpdate) (id : String) :
    getDoc (apply_stock_updates mk now t d s al ups).1.inventory id =
      applyQ (getDoc s.inventory id) ups id := by
  induction ups generalizing s al with
  | nil => rfl
  | cons u rest ih =>
    simp only [apply_stock_updates, applyQ, List.foldl_cons]
    rw [ih]
    by_cases hu : u.ref = id
    · subst hu
      simp [appendHist, applyQ, getDoc_updateDoc_self]
    · simp [appendHist, applyQ, getDoc_updateDoc_ne _ _ _ _ hu, hu]

theorem apply_stock_updates_hist (mk : InventoryItem → Int → String) (now : Nat)
    (t d : String) (s : Store) (al : List String) (ups : List ItemUpdate) (id : String) :
    getHist (apply_stock_updates mk now t d s al ups).1 id =
      getHist s id ++
        (ups.filter (fun u => u.ref = id)).map
          (fun u => { timestamp := now, type := t,
                      quantity_change := some (-u.ing_quantity), details := d }) := by
  induction ups generalizing s al with
  | nil => simp [apply_stock_updates]
  | cons u rest ih =>
    simp only [apply_stock_updates]
    rw [ih]
    by_cases hu : u.ref = id
    · subst hu
      rw [List.filter_cons_of_pos (by simp)]
      rw [getHist_appendHist_self]
      simp [getHist, appendHist]
    · rw [List.filter_cons_of_neg (by simpa using hu)]
      rw [getHist_appendHist_ne _ _ _ _ hu]
      rfl

theorem apply_stock_updates_alerts (mk : InventoryItem → Int → String) (now : Nat)
    (t d : String) (s : Store) (al : List String) (ups : List ItemUpdate) :
    (apply_stock_updates mk now t d s al ups).2 =
      al ++ (ups.filter (fun u => low_stock_condition u.item_data u.new_quantity)).map
        (fun u => mk u.item_data u.new_quantity) := by
  induction ups generalizing s al with
  | nil => simp [apply_stock_updates]
  | cons u rest ih =>
    simp only [apply_stock_updates]
    by_cases hc : low_stock_condition u.item_data u.new_quantity
    · rw [List.filter_cons_of_pos (by simpa using hc)]
      rw [if_pos hc, ih]
      simp
    · rw [List.filter_cons_of_neg (by simpa using hc)]
      rw [if_neg hc, ih]

theorem apply_stock_updates_total (mk : InventoryItem → Int → String) (now : Nat)
    (t d : String) (s : Store) (al : List String) (ups : List ItemUpdate) :
    totalHistSum (apply_stock_updates mk now t d s al ups).1 =
      totalHistSum s + (ups.map (fun u => -u.ing_quantity)).sum := by
  induction ups generalizing s al with
  | nil => simp [apply_stock_updates]
  | cons u rest ih =>
    simp only [apply_stock_updates]
    rw [ih, totalHistSum_appendHist]
    simp only [totalHistSum, List.map_cons, List.sum_cons, Option.getD_some]
    ring

/-! ### Characterization of the validation passes -/

theorem check_order_items_ok (s : Store) (l : List Ingredient) (ups : List ItemUpdate)
    (h : check_order_items s l = Except.ok ups) :
    ups = l.map (stagedUpdateOf s) ∧
      ∀ ing ∈ l, (getDoc s.inventory ing.id).isSome ∧
        ¬ (currentOf s ing.id < ing.quantity) := by
  induction l generalizing ups with
  | nil =>
    simp only [check_order_items] at h
    cases h
    simp
  | cons ing rest ih =>
    simp only [check_order_items] at h
    cases hg : getDoc s.inventory ing.id with
    | none => rw [hg] at h; cases h
    | some item_data =>
      rw [hg] at h
      dsimp only at h
      by_cases hlt : item_data.quantity.getD 0 < ing.quantity
      · rw [if_pos hlt] at h; cases h
      · rw [if_neg hlt] at h
        cases hr : check_order_items s rest with
        | error e => rw [hr] at h; cases h
        | ok rest2 =>
          rw [hr] at h
          cases h
          obtain ⟨h1, h2⟩ := ih rest2 hr
          constructor
          · rw [h1]
            simp [stagedUpdateOf, currentOf, itemOf, hg]
          · intro j hj
            rcases List.mem_cons.mp hj with hj | hj
            · subst hj
              simp [hg, currentOf, hlt]
            · exact h2 j hj

theorem check_order_items_insufficient (s : Store) (l : List Ingredient)
    (hex : ∀ ing ∈ l, (getDoc s.inventory ing.id).isSome)
    (hbad : ∃ ing ∈ l, currentOf s ing.id < ing.quantity) :
    ∃ ing, l.find? (fun i => decide (currentOf s i.id < i.quantity)) = some ing ∧
      check_order_items s l = Except.error ("Stock insuficiente para '" ++
        optStr ing.name ++ "'. Disponible: " ++ toString (currentOf s ing.id)) := by
  induction l with
  | nil => simp at hbad
  | cons ing rest ih =>
    obtain ⟨it, hit⟩ := Option.isSome_iff_exists.mp (hex ing (by simp))
    by_cases hlt : currentOf s ing.id < ing.quantity
    · refine ⟨ing, ?_, ?_⟩
      · rw [List.find?_cons_of_pos _ (by simpa using hlt)]
      · have hq : currentOf s ing.id = it.quantity.getD 0 := by
          simp [currentOf, hit]
        simp only [check_order_items, hit]
        rw [if_pos (by rw [← hq]; exact hlt)]
        rw [hq]
    · have hbad2 : ∃ j ∈ rest, currentOf s j.id < j.quantity := by
        rcases hbad with ⟨j, hj, hjq⟩
        rcases List.mem_cons.mp hj with hj | hj
        · subst hj; exact absurd hjq hlt
        · exact ⟨j, hj, hjq⟩
      obtain ⟨j, hfind, herr⟩ := ih (fun i hi => hex i (by simp [hi])) hbad2
      refine ⟨j, ?_, ?_⟩
      · rw [List.find?_cons_of_neg _ (by simpa using hlt)]
        exact hfind
      · have hq : currentOf s ing.id = it.quantity.getD 0 := by
          simp [currentOf, hit]
        have hlt2 : ¬ it.quantity.getD 0 < ing.quantity := by rw [← hq]; exact hlt
        simp only [check_order_items, hit]
        rw [if_neg hlt2, herr]

theorem check_sold_items_ok (s : Store) (l : List Ingredient) (acc : DirectPrep)
    (prep : DirectPrep) (h : check_sold_items s acc l = Except.ok prep) :
    prep.items_to_update = acc.items_to_update ++ l.map (stagedUpdateOf s) ∧
      prep.enriched_ingredients = acc.enriched_ingredients ++ l.map (enrichedOf s) ∧
      prep.total_price = acc.total_price +
        (l.map (fun e => salePriceOf s e.id * (e.quantity : ℚ))).sum ∧
      ∀ e ∈ l, (getDoc s.inventory e.id).isSome ∧
        ¬ (currentOf s e.id < e.quantity) := by
  induction l generalizing acc with
  | nil =>
    simp only [check_sold_items] at h
    cases h
    simp
  | cons sold rest ih =>
    simp only [check_sold_items] at h
    cases hg : getDoc s.inventory sold.id with
    | none => rw [hg] at h; cases h
    | some item_data =>
      rw [hg] at h
      dsimp only at h
      by_cases hlt : item_data.quantity.getD 0 < sold.quantity
      · rw [if_pos hlt] at h; cases h
      · rw [if_neg hlt] at h
        obtain ⟨h1, h2, h3, h4⟩ := ih _ h
        refine ⟨?_, ?_, ?_, ?_⟩
        · rw [h1]
          simp [stagedUpdateOf, currentOf, itemOf, hg]
        · rw [h2]
          simp [enrichedOf, itemOf, salePriceOf, purchasePriceOf, hg]
        · rw [h3]
          simp only [List.map_cons, List.sum_cons, salePriceOf, hg]
          ring
        · intro j hj
          rcases List.mem_cons.mp hj with hj | hj
          · subst hj
            simp [hg, currentOf, hlt]
          · exact h4 j hj

/-! ### Success and failure shapes of the public operations -/

theorem complete_order_ok (s : Store) (oid : String) (now : Nat) (o : Order)
    (ups : List ItemUpdate) (ho : getDoc s.orders oid = some o)
    (hc : check_order_items s o.ingredients = Except.ok ups) :
    complete_order s oid now =
      ({ (apply_stock_updates complete_alert_msg now "Venta Completada"
            ("Venta ID: " ++ oid) s [] ups).1 with
          orders := (updateDoc (apply_stock_updates complete_alert_msg now
            "Venta Completada" ("Venta ID: " ++ oid) s [] ups).1.orders oid
            (fun o2 => { o2 with status := some "completed", completed_at := some now })) },
       (true, "Venta '" ++ optStr o.title ++ "' finalizada correctamente.",
        (apply_stock_updates complete_alert_msg now "Venta Completada"
          ("Venta ID: " ++ oid) s [] ups).2)) := by
  simp [complete_order, _complete_order_atomic, ho, hc]

theorem complete_order_err (s : Store) (oid : String) (now : Nat) (e : String)
    (he : _complete_order_atomic s oid now = Except.error e) :
    complete_order s oid now = (s, (false, "Error transacción: " ++ e, [])) := by
  simp [complete_order, he]

theorem process_direct_sale_ok (s : Store) (items_sold : List Ingredient)
    (sale_id : String) (pay : Option Payment) (now : Nat) (prep : DirectPrep)
    (hc : check_sold_items s ⟨[], [], 0⟩ items_sold = Except.ok prep) :
    process_direct_sale s items_sold sale_id pay now =
      ({ (apply_stock_updates direct_alert_msg now "Venta Directa"
            ("ID Venta: " ++ sale_id) s [] prep.items_to_update).1 with
          orders := (setDoc (apply_stock_updates direct_alert_msg now "Venta Directa"
            ("ID Venta: " ++ sale_id) s [] prep.items_to_update).1.orders sale_id
            { title := some ("Venta Directa " ++ (sale_id.splitOn "-").getLastD ""),
              price := some prep.total_price,
              ingredients := prep.enriched_ingredients,
              status := some "completed",
              timestamp := some now,
              completed_at := some now,
              payment_method := some (((pay.getD
                { method := some "efectivo",
                  customer := some "Cliente General" }).method).getD "efectivo"),
              customer_name := some (((pay.getD
                { method := some "efectivo",
                  customer := some "Cliente General" }).customer).getD "Cliente General"),
              is_direct_sale := some true }) },
       (true, "Venta registrada. Total: " ++ toString prep.total_price,
        (apply_stock_updates direct_alert_msg now "Venta Directa"
          ("ID Venta: " ++ sale_id) s [] prep.items_to_update).2)) := by
  simp [process_direct_sale, _process_direct_sale_atomic, hc]

theorem process_direct_sale_err (s : Store) (items_sold : List Ingredient)
    (sale_id : String) (pay : Option Payment) (now : Nat) (e : String)
    (he : _process_direct_sale_atomic s items_sold sale_id
      (pay.getD { method := some "efectivo", customer := some "Cliente General" }) now =
      Except.error e) :
    process_direct_sale s items_sold sale_id pay now =
      (s, (false, "Error al procesar venta: " ++ e, [])) := by
  simp [process_direct_sale, he]

/-! ### Further helper lemmas -/

theorem filter_map_staged (s : Store) (l : List Ingredient) (id : String) :
    (l.map (stagedUpdateOf s)).filter (fun u => u.ref = id) =
      (l.filter (fun i => i.id = id)).map (stagedUpdateOf s) := by
  induction l with
  | nil => rfl
  | cons i rest ih =>
    by_cases hid : i.id = id
    · rw [List.map_cons, List.filter_cons_of_pos (by simp [stagedUpdateOf, hid]),
        List.filter_cons_of_pos (by simpa using hid), List.map_cons, ih]
    · rw [List.map_cons, List.filter_cons_of_neg (by simp [stagedUpdateOf, hid]),
        List.filter_cons_of_neg (by simpa using hid), ih]

theorem sum_neg_staged (s : Store) (l : List Ingredient) :
    ((l.map (stagedUpdateOf s)).map (fun u => -u.ing_quantity)).sum =
      -((l.map (fun i => i.quantity)).sum) := by
  induction l with
  | nil => simp
  | cons i rest ih =>
    simp only [List.map_cons, List.sum_cons, List.map_map] at *
    simp only [Function.comp_apply, stagedUpdateOf] at *
    omega

theorem low_stock_eq_spec (it : InventoryItem) (q : Int) :
    low_stock_condition it q = spec_alert_condition it.min_stock_alert q := by
  cases h : it.min_stock_alert with
  | none => simp [low_stock_condition, spec_alert_condition, h]
  | some m =>
    simp only [low_stock_condition, spec_alert_condition, h]
    by_cases h0 : (0 : Int) < q <;> by_cases h1 : q ≤ m
    · have hm : (0 : Int) < m := by omega
      have hm0 : m ≠ 0 := by omega
      simp [h0, h1, hm, hm0]
    · simp [h0, h1]
    · simp [h0, h1]
    · simp [h0, h1]

theorem _delete_collection_batch_spec (l : List HistoryEntry) :
    _delete_collection_batch l = ((l.length + 19) / 20, []) := by
  have H : ∀ n (l : List HistoryEntry), l.length ≤ n →
      _delete_collection_batch l = ((l.length + 19) / 20, []) := by
    intro n
    induction n using Nat.strong_induction_on with
    | _ n ih =>
      intro l hl
      unfold _delete_collection_batch
      by_cases h : 20 ≤ (l.take 20).length
      · rw [dif_pos h]
        have h20 : 20 ≤ l.length := by
          simpa [List.length_take] using h
        have hn : 0 < n := by omega
        have hrec := ih (n - 1) (by omega) (l.drop 20) (by simp [List.length_drop]; omega)
        rw [hrec]
        simp only [List.length_drop, Prod.mk.injEq]
        exact ⟨by omega, trivial⟩
      · rw [dif_neg h]
        have hlt : l.length < 20 := by
          simp only [List.length_take] at h
          omega
        by_cases h0 : 0 < (l.take 20).length
        · rw [if_pos h0]
          have hpos : 0 < l.length := by
            simp only [List.length_take] at h0
            omega
          have hd : l.drop 20 = [] := List.drop_eq_nil_of_le (by omega)
          rw [hd]
          simp only [Prod.mk.injEq]
          exact ⟨by omega, trivial⟩
        · rw [if_neg h0]
          have hz : l.length = 0 := by
            simp only [List.length_take] at h0
            omega
          have : l = [] := List.length_eq_zero.mp hz
          subst this
          simp
  exact H l.length l le_rfl

theorem check_sold_items_total (s : Store) (l : List Ingredient)
    (hall : ∀ e ∈ l, ∃ it, getDoc s.inventory e.id = some it ∧
      ¬ (it.quantity.getD 0 < e.quantity)) :
    ∀ acc, ∃ prep, check_sold_items s acc l = Except.ok prep := by
  induction l with
  | nil => exact fun acc => ⟨acc, rfl⟩
  | cons sold rest ih =>
    intro acc
    obtain ⟨it, hit, hlt⟩ := hall sold (by simp)
    obtain ⟨prep, hprep⟩ := ih (fun e he => hall e (by simp [he])) _
    refine ⟨prep, ?_⟩
    simp only [check_sold_items, hit]
    rw [if_neg hlt]
    exact hprep

/-! ### Claims -/

/-- C4: the retry wrapper makes at most 3 attempts with delays 1, 2, 4
after the failures — but when all attempts fail, the bare `raise` outside
the `except` block raises `RuntimeError: No active exception to re-raise`
instead of propagating the wrapped operation's original error.  Evaluated
at an operation that raises on every attempt: exactly the attempts
0, 1, 2 are made, the sleeps are 1, 2, 4, and the surfaced error is the
`RuntimeError`, not the original error. -/
theorem C4_retry_exhaustion_loses_original_error :
    firestore_retry (fun _ => (Except.error "boom" : Except String Unit)) =
      (Except.error PyExc.noActiveException, [1, 2, 4], [0, 1, 2]) ∧
    (Except.error PyExc.noActiveException : Except PyExc Unit) ≠
      Except.error (PyExc.userExc "boom") := by
  constructor
  · rfl
  · simp

/-- C8: deleting an item whose history holds `N` entries issues exactly
`⌈N/20⌉ = (N + 19) / 20` history-deletion batch commits, afterwards no
history document of the item remains, and the item document itself is
deleted; the batched deletion is a total (terminating) function. -/
theorem C8_delete_item_batches (s : Store) (doc_id : String) :
    (delete_inventory_item s doc_id).2 = ((getHist s doc_id).length + 19) / 20 ∧
    getHist (delete_inventory_item s doc_id).1 doc_id = [] ∧
    getDoc (delete_inventory_item s doc_id).1.inventory doc_id = none := by
  refine ⟨?_, ?_, ?_⟩
  · simp [delete_inventory_item, _delete_collection_batch_spec]
  · simp [delete_inventory_item, _delete_collection_batch_spec, getHist, getDoc_setDoc_self]
  · simp [delete_inventory_item, getDoc_removeDoc_self]

theorem save_item_history (s : Store) (data : InventoryItem) (custom_id : String)
    (is_new : Bool) (details : Option String) (now : Nat) :
    getHist (save_inventory_item s data custom_id is_new details now) custom_id =
      getHist s custom_id ++
        [{ timestamp := now,
           type := if is_new then "Stock Inicial" else "Ajuste Manual",
           quantity_change := data.quantity,
           details := details.getD (if is_new then "Item creado en el sistema."
             else "Item actualizado manualmente.") }] := by
  unfold save_inventory_item
  rw [getHist_appendHist_self]
  rfl

theorem save_item_inventory (s : Store) (data : InventoryItem) (custom_id : String)
    (is_new : Bool) (details : Option String) (now : Nat) :
    getDoc (save_inventory_item s data custom_id is_new details now).inventory custom_id =
      some { name := data.name.orElse
               (fun _ => (getDoc s.inventory custom_id).bind (fun it => it.name)),
             quantity := data.quantity.orElse
               (fun _ => (getDoc s.inventory custom_id).bind (fun it => it.quantity)),
             sale_price := data.sale_price.orElse
               (fun _ => (getDoc s.inventory custom_id).bind (fun it => it.sale_price)),
             purchase_price := data.purchase_price.orElse
               (fun _ => (getDoc s.inventory custom_id).bind (fun it => it.purchase_price)),
             min_stock_alert := data.min_stock_alert.orElse
               (fun _ => (getDoc s.inventory custom_id).bind (fun it => it.min_stock_alert)) } := by
  cases hg : getDoc s.inventory custom_id with
  | none =>
    simp only [save_inventory_item, hg, appendHist_inventory, getDoc_setDoc_self,
      Option.bind_eq_bind, Option.none_bind]
    cases data with
    | mk n q sp pp msa =>
      cases n <;> cases q <;> cases sp <;> cases pp <;> cases msa <;> rfl
  | some old =>
    simp only [save_inventory_item, hg, appendHist_inventory, getDoc_setDoc_self,
      Option.bind_eq_bind, Option.some_bind]

/-- C9 counterexample: the claim says `quantity_change` equals the item's
post-write quantity even when `data` has no `quantity` field.  Saving
`{'name': 'foo'}` over an item whose stored quantity is 5 preserves the
quantity (post-write value `some 5`, by merge), yet the appended history
entry records `quantity_change = data.get('quantity') = None ≠ 5`. -/
theorem C9_counterexample :
    (getDoc (save_inventory_item
        ⟨[("x", ⟨some "X", some 5, none, none, none⟩)], [("x", [])], []⟩
        ⟨some "foo", none, none, none, none⟩ "x" false none 7).inventory "x").bind
      (fun it => it.quantity) = some 5 ∧
    getHist (save_inventory_item
        ⟨[("x", ⟨some "X", some 5, none, none, none⟩)], [("x", [])], []⟩
        ⟨some "foo", none, none, none, none⟩ "x" false none 7) "x" =
      [{ timestamp := 7, type := "Ajuste Manual", quantity_change := none,
         details := "Item actualizado manualmente." }] ∧
    (none : Option Int) ≠ some 5 := by
  refine ⟨?_, ?_, by simp⟩
  · rfl
  · rfl

/-- C9 (amended): `SaveItem` upserts with merge semantics (each field of
the stored document becomes the `data` field when present, otherwise the
previously stored field) and appends exactly one history entry of type
`Stock Inicial` when new and `Ajuste Manual` otherwise, whose
`quantity_change` is `data.get('quantity')` — the value of the input's
quantity field.  That value equals the post-write quantity when `data`
contains a quantity field; when `data` has no quantity field the entry
records `None` while the post-write quantity is the preserved old value. -/
theorem C9_save_item_upsert_and_history (s : Store) (data : InventoryItem)
    (custom_id : String) (is_new : Bool) (details : Option String) (now : Nat) :
    getHist (save_inventory_item s data custom_id is_new details now) custom_id =
      getHist s custom_id ++
        [{ timestamp := now,
           type := if is_new then "Stock Inicial" else "Ajuste Manual",
           quantity_change := data.quantity,
           details := details.getD (if is_new then "Item creado en el sistema."
             else "Item actualizado manualmente.") }] ∧
    getDoc (save_inventory_item s data custom_id is_new details now).inventory custom_id =
      some { name := data.name.orElse
               (fun _ => (getDoc s.inventory custom_id).bind (fun it => it.name)),
             quantity := data.quantity.orElse
               (fun _ => (getDoc s.inventory custom_id).bind (fun it => it.quantity)),
             sale_price := data.sale_price.orElse
               (fun _ => (getDoc s.inventory custom_id).bind (fun it => it.sale_price)),
             purchase_price := data.purchase_price.orElse
               (fun _ => (getDoc s.inventory custom_id).bind (fun it => it.purchase_price)),
             min_stock_alert := data.min_stock_alert.orElse
               (fun _ => (getDoc s.inventory custom_id).bind (fun it => it.min_stock_alert)) } ∧
    (data.quantity.isSome →
      (getDoc (save_inventory_item s data custom_id is_new details now).inventory
        custom_id).bind (fun it => it.quantity) = data.quantity) := by
  refine ⟨save_item_history s data custom_id is_new details now,
    save_item_inventory s data custom_id is_new details now, fun hq => ?_⟩
  rw [save_item_inventory s data custom_id is_new details now]
  obtain ⟨q, hqq⟩ := Option.isSome_iff_exists.mp hq
  simp [hqq]

/-- C9 witness: the amended theorem applied at a concrete store — saving
`{'name': 'n', 'quantity': 9}` over an item with stored quantity 5 yields
post-write quantity 9 (equal to the recorded `quantity_change`). -/
theorem C9_save_item_witness :
    (getDoc (save_inventory_item
        ⟨[("x", ⟨some "X", some 5, none, none, none⟩)], [("x", [])], []⟩
        ⟨some "n", some 9, none, none, none⟩ "x" false none 7).inventory "x").bind
      (fun it => it.quantity) = some 9 := by
  have h := C9_save_item_upsert_and_history
    ⟨[("x", ⟨some "X", some 5, none, none, none⟩)], [("x", [])], []⟩
    ⟨some "n", some 9, none, none, none⟩ "x" false none 7
  exact h.2.2 rfl

/-- C6: in both `CompleteOrder` and `ProcessDirectSale`, a low-stock
alert for a staged item is emitted iff `0 < newQuantity ≤ minStockAlert`
with `minStockAlert > 0` (so no alert when the new quantity is 0 or the
threshold is unset or zero): the source's shared guard is equivalent to
that condition, and each function's returned alert list is exactly the
alert messages of the staged updates satisfying it, in order. -/
theorem C6_low_stock_alert_iff :
    (∀ (it : InventoryItem) (q : Int),
      low_stock_condition it q = true ↔
        ∃ m, it.min_stock_alert = some m ∧ 0 < q ∧ q ≤ m ∧ 0 < m) ∧
    (∀ (s : Store) (oid : String) (now : Nat) (o : Order) (ups : List ItemUpdate),
      getDoc s.orders oid = some o →
      check_order_items s o.ingredients = Except.ok ups →
      (complete_order s oid now).2.2.2 =
        (ups.filter (fun u => spec_alert_condition u.item_data.min_stock_alert
          u.new_quantity)).map (fun u => complete_alert_msg u.item_data u.new_quantity)) ∧
    (∀ (s : Store) (items : List Ingredient) (sid : String) (pay : Option Payment)
      (now : Nat) (prep : DirectPrep),
      check_sold_items s ⟨[], [], 0⟩ items = Except.ok prep →
      (process_direct_sale s items sid pay now).2.2.2 =
        (prep.items_to_update.filter (fun u => spec_alert_condition
          u.item_data.min_stock_alert u.new_quantity)).map
          (fun u => direct_alert_msg u.item_data u.new_quantity)) := by
  refine ⟨?_, ?_, ?_⟩
  · intro it q
    rw [low_stock_eq_spec]
    cases h : it.min_stock_alert with
    | none => simp [spec_alert_condition]
    | some m =>
      simp only [spec_alert_condition, Bool.and_eq_true, decide_eq_true_eq,
        Option.some.injEq]
      constructor
      · rintro ⟨h0, h1, hm⟩
        exact ⟨m, rfl, h0, h1, hm⟩
      · rintro ⟨m2, hm2, h0, h1, hm⟩
        subst hm2
        exact ⟨h0, h1, hm⟩
  · intro s oid now o ups ho hc
    rw [complete_order_ok s oid now o ups ho hc]
    have hfc : ups.filter (fun u => low_stock_condition u.item_data u.new_quantity) =
        ups.filter (fun u => spec_alert_condition u.item_data.min_stock_alert
          u.new_quantity) :=
      List.filter_congr (fun u _ => low_stock_eq_spec u.item_data u.new_quantity)
    have h := apply_stock_updates_alerts complete_alert_msg now "Venta Completada"
      ("Venta ID: " ++ oid) s [] ups
    rw [hfc] at h
    simpa using h
  · intro s items sid pay now prep hc
    rw [process_direct_sale_ok s items sid pay now prep hc]
    have hfc : prep.items_to_update.filter
        (fun u => low_stock_condition u.item_data u.new_quantity) =
        prep.items_to_update.filter (fun u => spec_alert_condition
          u.item_data.min_stock_alert u.new_quantity) :=
      List.filter_congr (fun u _ => low_stock_eq_spec u.item_data u.new_quantity)
    have h := apply_stock_updates_alerts direct_alert_msg now "Venta Directa"
      ("ID Venta: " ++ sid) s [] prep.items_to_update
    rw [hfc] at h
    simpa using h

/-- C5: for every `ProcessDirectSale` call that passes validation, the
created order's `price` is the sum over the input items of the store's
current `sale_price` times the requested quantity, and every persisted
line item carries the store's `sale_price` and `purchase_price`
(`enrichedOf` ignores the caller-attached price fields). -/
theorem C5_direct_sale_store_prices (s : Store) (items : List Ingredient)
    (sid : String) (pay : Option Payment) (now : Nat) (prep : DirectPrep)
    (hc : check_sold_items s ⟨[], [], 0⟩ items = Except.ok prep) :
    (process_direct_sale s items sid pay now).2.1 = true ∧
    ∃ od, getDoc (process_direct_sale s items sid pay now).1.orders sid = some od ∧
      od.price = some ((items.map (fun e => salePriceOf s e.id * (e.quantity : ℚ))).sum) ∧
      od.ingredients = items.map (enrichedOf s) := by
  obtain ⟨h1, h2, h3, _⟩ := check_sold_items_ok s items ⟨[], [], 0⟩ prep hc
  rw [process_direct_sale_ok s items sid pay now prep hc]
  refine ⟨rfl, ?_⟩
  refine ⟨_, getDoc_setDoc_self _ _ _, ?_, ?_⟩
  · simp [h3]
  · simp [h2]

/-- C10: when the sold-items list holds two entries with the same item
id, each is validated independently against the same snapshot quantity
`Q` (only `Q ≥ q1` and `Q ≥ q2` are required — never `Q ≥ q1 + q2`), a
history entry and a price contribution are recorded for each occurrence,
but both staged updates target the same document, so the committed
quantity is `Q - q2`: only the last occurrence's decrement survives. -/
theorem C10_duplicate_sold_items (s : Store) (e1 e2 : Ingredient) (sid : String)
    (pay : Option Payment) (now : Nat) (it : InventoryItem) (Q : Int)
    (hid : e2.id = e1.id)
    (hit : getDoc s.inventory e1.id = some it)
    (hq : it.quantity = some Q)
    (h1 : ¬ Q < e1.quantity) (h2 : ¬ Q < e2.quantity) :
    (process_direct_sale s [e1, e2] sid pay now).2.1 = true ∧
    getHist (process_direct_sale s [e1, e2] sid pay now).1 e1.id =
      getHist s e1.id ++
        [{ timestamp := now, type := "Venta Directa",
           quantity_change := some (-e1.quantity), details := "ID Venta: " ++ sid },
         { timestamp := now, type := "Venta Directa",
           quantity_change := some (-e2.quantity), details := "ID Venta: " ++ sid }] ∧
    getDoc (process_direct_sale s [e1, e2] sid pay now).1.inventory e1.id =
      some { it with quantity := some (Q - e2.quantity) } ∧
    ∃ od, getDoc (process_direct_sale s [e1, e2] sid pay now).1.orders sid = some od ∧
      od.price = some (it.sale_price.getD 0 * (e1.quantity : ℚ) +
        it.sale_price.getD 0 * (e2.quantity : ℚ)) := by
  have hall : ∀ e ∈ [e1, e2], ∃ it2, getDoc s.inventory e.id = some it2 ∧
      ¬ (it2.quantity.getD 0 < e.quantity) := by
    intro e he
    rcases List.mem_pair.mp he with rfl | rfl
    · exact ⟨it, hit, by simp [hq, h1]⟩
    · exact ⟨it, by rw [hid]; exact hit, by simp [hq, h2]⟩
  obtain ⟨prep, hc⟩ := check_sold_items_total s [e1, e2] hall ⟨[], [], 0⟩
  obtain ⟨hu, _, hp, _⟩ := check_sold_items_ok s [e1, e2] ⟨[], [], 0⟩ prep hc
  have hps := process_direct_sale_ok s [e1, e2] sid pay now prep hc
  have hcur : currentOf s e1.id = Q := by simp [currentOf, hit, hq]
  have hitem : itemOf s e1.id = it := by simp [itemOf, hit]
  refine ⟨by rw [hps], ?_, ?_, ?_⟩
  · have step1 : getHist (process_direct_sale s [e1, e2] sid pay now).1 e1.id =
        getHist (apply_stock_updates direct_alert_msg now "Venta Directa"
          ("ID Venta: " ++ sid) s [] prep.items_to_update).1 e1.id := by
      rw [hps]
      rfl
    rw [step1, apply_stock_updates_hist, hu]
    simp [stagedUpdateOf, hid]
  · have step1 : getDoc (process_direct_sale s [e1, e2] sid pay now).1.inventory e1.id =
        getDoc (apply_stock_updates direct_alert_msg now "Venta Directa"
          ("ID Venta: " ++ sid) s [] prep.items_to_update).1.inventory e1.id := by
      rw [hps]
    rw [step1, apply_stock_updates_inventory, hu]
    obtain ⟨n, qf, sp, pp, msa⟩ := it
    simp only [InventoryItem.quantity] at hq
    subst hq
    simp [applyQ, stagedUpdateOf, hid, hit, hcur, hitem]
  · have step1 : getDoc (process_direct_sale s [e1, e2] sid pay now).1.orders sid =
        getDoc (setDoc (apply_stock_updates direct_alert_msg now "Venta Directa"
          ("ID Venta: " ++ sid) s [] prep.items_to_update).1.orders sid
          { title := some ("Venta Directa " ++ (sid.splitOn "-").getLastD ""),
            price := some prep.total_price,
            ingredients := prep.enriched_ingredients,
            status := some "completed",
            timestamp := some now,
            completed_at := some now,
            payment_method := some (((pay.getD
              { method := some "efectivo",
                customer := some "Cliente General" }).method).getD "efectivo"),
            customer_name := some (((pay.getD
              { method := some "efectivo",
                customer := some "Cliente General" }).customer).getD "Cliente General"),
            is_direct_sale := some true }) sid := by
      rw [hps]
    refine ⟨_, step1.trans (getDoc_setDoc_self _ _ _), ?_⟩
    rw [hp]
    simp [salePriceOf, hid, hit]

/-- C5 witness: the claim's scenario — items A (qty 2, store price 5)
and B (qty 1, store price 10) with caller-attached prices 1 — yields an
order price of 20, not 3. -/
theorem C5_direct_sale_witness :
    ∃ od, getDoc (process_direct_sale
        ⟨[("A", ⟨some "A", some 10, some 5, none, none⟩),
          ("B", ⟨some "B", some 10, some 10, none, none⟩)], [], []⟩
        [⟨"A", some "A", 2, some 1, some 1⟩, ⟨"B", some "B", 1, some 1, some 1⟩]
        "V-1" none 0).1.orders "V-1" = some od ∧
      od.price = some 20 ∧ od.price ≠ some 3 := by
  obtain ⟨hok, od, hod, hprice, hing⟩ := C5_direct_sale_store_prices
    ⟨[("A", ⟨some "A", some 10, some 5, none, none⟩),
      ("B", ⟨some "B", some 10, some 10, none, none⟩)], [], []⟩
    [⟨"A", some "A", 2, some 1, some 1⟩, ⟨"B", some "B", 1, some 1, some 1⟩]
    "V-1" none 0
    ⟨[{ ref := "A", new_quantity := 8,
        item_data := ⟨some "A", some 10, some 5, none, none⟩, ing_quantity := 2 },
      { ref := "B", new_quantity := 9,
        item_data := ⟨some "B", some 10, some 10, none, none⟩, ing_quantity := 1 }],
     [{ id := "A", name := some "A", quantity := 2,
        sale_price := some 5, purchase_price := some 0 },
      { id := "B", name := some "B", quantity := 1,
        sale_price := some 10, purchase_price := some 0 }],
     0 + 5 * ((2 : Int) : ℚ) + 10 * ((1 : Int) : ℚ)⟩ rfl
  have h20 : ((([⟨"A", some "A", 2, some 1, some 1⟩,
      ⟨"B", some "B", 1, some 1, some 1⟩] : List Ingredient).map
        (fun e => salePriceOf
          ⟨[("A", ⟨some "A", some 10, some 5, none, none⟩),
            ("B", ⟨some "B", some 10, some 10, none, none⟩)], [], []⟩ e.id *
          (e.quantity : ℚ))).sum) = 20 := by
    simp [salePriceOf, getDoc]
    norm_num
  rw [h20] at hprice
  exact ⟨od, hod, hprice, by rw [hprice]; simp⟩

/-- C6 witness: part 2 of the alert theorem applied at a concrete store —
an item at quantity 10 with threshold 5, sold down to 4 by completing an
order, emits exactly the one low-stock alert. -/
theorem C6_low_stock_witness :
    (complete_order
      ⟨[("a", ⟨some "A", some 10, some 5, some 3, some 5⟩)], [("a", [])],
       [("o1", ⟨some "T", some 30,
          [⟨"a", some "A", 6, none, none⟩], some "processing", some 0, none,
          some "efectivo", some "C", some false⟩)]⟩ "o1" 3).2.2.2 =
      ["'A' ha alcanzado el umbral de stock mínimo (4/5)."] := by
  have h := C6_low_stock_alert_iff.2.1
    ⟨[("a", ⟨some "A", some 10, some 5, some 3, some 5⟩)], [("a", [])],
     [("o1", ⟨some "T", some 30,
        [⟨"a", some "A", 6, none, none⟩], some "processing", some 0, none,
        some "efectivo", some "C", some false⟩)]⟩ "o1" 3
    ⟨some "T", some 30, [⟨"a", some "A", 6, none, none⟩], some "processing",
     some 0, none, some "efectivo", some "C", some false⟩
    [{ ref := "a", new_quantity := 4,
       item_data := ⟨some "A", some 10, some 5, some 3, some 5⟩,
       ing_quantity := 6 }] rfl rfl
  rw [h]
  rfl

/-- C10 witness: snapshot quantity 5, duplicate occurrences requesting 3
and then 4 — their combined quantity 7 exceeds the available 5, yet the
sale succeeds and commits quantity 5 − 4 = 1. -/
theorem C10_duplicate_witness :
    (3 : Int) + 4 > 5 ∧
    (process_direct_sale
      ⟨[("a", ⟨some "A", some 5, some 2, none, none⟩)], [("a", [])], []⟩
      [⟨"a", some "A", 3, none, none⟩, ⟨"a", some "A", 4, none, none⟩]
      "V-9" none 2).2.1 = true ∧
    getDoc (process_direct_sale
      ⟨[("a", ⟨some "A", some 5, some 2, none, none⟩)], [("a", [])], []⟩
      [⟨"a", some "A", 3, none, none⟩, ⟨"a", some "A", 4, none, none⟩]
      "V-9" none 2).1.inventory "a" = some ⟨some "A", some 1, some 2, none, none⟩ := by
  have h := C10_duplicate_sold_items
    ⟨[("a", ⟨some "A", some 5, some 2, none, none⟩)], [("a", [])], []⟩
    ⟨"a", some "A", 3, none, none⟩ ⟨"a", some "A", 4, none, none⟩
    "V-9" none 2 ⟨some "A", some 5, some 2, none, none⟩ 5
    rfl rfl rfl (by norm_num) (by norm_num)
  refine ⟨by norm_num, h.1, ?_⟩
  rw [h.2.2.1]
  rfl

/-- C1 counterexample: the claim promises an `InsufficientStock` message
whenever some line item's available quantity is below its requested
quantity, but when an earlier line item's inventory document is missing
the call reports the missing-product error instead.  Store: item `b`
exists with quantity 0 < requested 1 (so the claim's hypothesis holds),
item `a` was deleted; the message is the NotFound one for `a`, not the
InsufficientStock one for `b` (the store is still unchanged). -/
theorem C1_counterexample :
    currentOf ⟨[("b", ⟨some "B", some 0, none, none, none⟩)], [("b", [])],
      [("o", ⟨some "T", none, [⟨"a", some "A", 1, none, none⟩,
        ⟨"b", some "B", 1, none, none⟩], some "processing", some 0, none,
        none, none, none⟩)]⟩ "b" < 1 ∧
    complete_order ⟨[("b", ⟨some "B", some 0, none, none, none⟩)], [("b", [])],
      [("o", ⟨some "T", none, [⟨"a", some "A", 1, none, none⟩,
        ⟨"b", some "B", 1, none, none⟩], some "processing", some 0, none,
        none, none, none⟩)]⟩ "o" 0 =
      (⟨[("b", ⟨some "B", some 0, none, none, none⟩)], [("b", [])],
        [("o", ⟨some "T", none, [⟨"a", some "A", 1, none, none⟩,
          ⟨"b", some "B", 1, none, none⟩], some "processing", some 0, none,
          none, none, none⟩)]⟩,
       (false, "Error transacción: Producto 'A' ya no existe en inventario.", [])) ∧
    "Error transacción: Producto 'A' ya no existe en inventario." ≠
      "Error transacción: Stock insuficiente para 'B'. Disponible: 0" := by
  refine ⟨by decide, rfl, by decide⟩

/-- C1 (amended): for every `CompleteOrder` call on an existing order in
which every line item's inventory document exists and some line item's
available quantity is strictly below its requested quantity, the call
returns `ok = false` with the `InsufficientStock` message naming the
first offending line item and its available quantity, an empty alerts
list, and the untouched store (no quantity, history, or order-status
change). -/
theorem C1_insufficient_stock_aborts (s : Store) (oid : String) (now : Nat) (o : Order)
    (ho : getDoc s.orders oid = some o)
    (hex : ∀ ing ∈ o.ingredients, (getDoc s.inventory ing.id).isSome)
    (hbad : ∃ ing ∈ o.ingredients, currentOf s ing.id < ing.quantity) :
    ∃ ing, o.ingredients.find? (fun i => decide (currentOf s i.id < i.quantity)) =
        some ing ∧
      complete_order s oid now =
        (s, (false, "Error transacción: " ++ ("Stock insuficiente para '" ++
          optStr ing.name ++ "'. Disponible: " ++ toString (currentOf s ing.id)), [])) := by
  obtain ⟨ing, hfind, herr⟩ := check_order_items_insufficient s o.ingredients hex hbad
  refine ⟨ing, hfind, ?_⟩
  have hatomic : _complete_order_atomic s oid now =
      Except.error ("Stock insuficiente para '" ++ optStr ing.name ++
        "'. Disponible: " ++ toString (currentOf s ing.id)) := by
    simp [_complete_order_atomic, ho, herr]
  rw [complete_order_err s oid now _ hatomic]

/-- C1 witness: the amended theorem at a concrete store — item `a` has
quantity 2, the order requests 5; the call aborts with the
insufficient-stock message for `a` and the store is returned unchanged. -/
theorem C1_insufficient_stock_witness :
    ∃ ing, ([⟨"a", some "A", 5, none, none⟩] : List Ingredient).find?
        (fun i => decide (currentOf ⟨[("a", ⟨some "A", some 2, none, none, none⟩)],
          [("a", [])], [("o", ⟨some "T", none, [⟨"a", some "A", 5, none, none⟩],
            some "processing", some 0, none, none, none, none⟩)]⟩ i.id < i.quantity)) =
        some ing ∧
      complete_order ⟨[("a", ⟨some "A", some 2, none, none, none⟩)],
        [("a", [])], [("o", ⟨some "T", none, [⟨"a", some "A", 5, none, none⟩],
          some "processing", some 0, none, none, none, none⟩)]⟩ "o" 0 =
        (⟨[("a", ⟨some "A", some 2, none, none, none⟩)],
          [("a", [])], [("o", ⟨some "T", none, [⟨"a", some "A", 5, none, none⟩],
            some "processing", some 0, none, none, none, none⟩)]⟩,
         (false, "Error transacción: " ++ ("Stock insuficiente para '" ++
           optStr (some "A") ++ "'. Disponible: " ++
           toString (currentOf ⟨[("a", ⟨some "A", some 2, none, none, none⟩)],
             [("a", [])], [("o", ⟨some "T", none, [⟨"a", some "A", 5, none, none⟩],
               some "processing", some 0, none, none, none, none⟩)]⟩ "a")), [])) := by
  obtain ⟨ing, hfind, hres⟩ := C1_insufficient_stock_aborts
    ⟨[("a", ⟨some "A", some 2, none, none, none⟩)],
     [("a", [])], [("o", ⟨some "T", none, [⟨"a", some "A", 5, none, none⟩],
       some "processing", some 0, none, none, none, none⟩)]⟩ "o" 0
    ⟨some "T", none, [⟨"a", some "A", 5, none, none⟩],
     some "processing", some 0, none, none, none, none⟩ rfl (by decide) (by decide)
  have hing : ing = ⟨"a", some "A", 5, none, none⟩ := by
    have heval : ([⟨"a", some "A", 5, none, none⟩] : List Ingredient).find?
        (fun i => decide (currentOf ⟨[("a", ⟨some "A", some 2, none, none, none⟩)],
          [("a", [])], [("o", ⟨some "T", none, [⟨"a", some "A", 5, none, none⟩],
            some "processing", some 0, none, none, none, none⟩)]⟩ i.id < i.quantity)) =
        some ⟨"a", some "A", 5, none, none⟩ := by decide
    rw [heval] at hfind
    exact (Option.some.inj hfind).symm
  subst hing
  exact ⟨_, hfind, hres⟩

/-- C2 counterexample: `_complete_order_atomic` never reads the order's
status, so completing an order whose status is already `completed` is not
a no-op.  Store: order `o1` has status `completed`; item `a` has quantity
5 and the order requests 1; the call succeeds, decrements the quantity to
4 and appends another history entry. -/
theorem C2_counterexample :
    (getDoc (⟨[("a", ⟨some "A", some 5, none, none, none⟩)], [("a", [])],
      [("o1", ⟨some "T", none, [⟨"a", some "A", 1, none, none⟩], some "completed",
        some 0, some 0, none, none, none⟩)]⟩ : Store).orders "o1").map
      (fun o => o.status) = some (some "completed") ∧
    (complete_order ⟨[("a", ⟨some "A", some 5, none, none, none⟩)], [("a", [])],
      [("o1", ⟨some "T", none, [⟨"a", some "A", 1, none, none⟩], some "completed",
        some 0, some 0, none, none, none⟩)]⟩ "o1" 3).2.1 = true ∧
    (getDoc (complete_order ⟨[("a", ⟨some "A", some 5, none, none, none⟩)],
      [("a", [])], [("o1", ⟨some "T", none, [⟨"a", some "A", 1, none, none⟩],
        some "completed", some 0, some 0, none, none, none⟩)]⟩
      "o1" 3).1.inventory "a").bind (fun it => it.quantity) = some 4 ∧
    getHist (complete_order ⟨[("a", ⟨some "A", some 5, none, none, none⟩)],
      [("a", [])], [("o1", ⟨some "T", none, [⟨"a", some "A", 1, none, none⟩],
        some "completed", some 0, some 0, none, none, none⟩)]⟩ "o1" 3).1 "a" =
      [⟨3, "Venta Completada", some (-1), "Venta ID: o1"⟩] ∧
    some (4 : Int) ≠ some (5 : Int) := by
  exact ⟨rfl, rfl, rfl, rfl, by decide⟩

/-- C2 (amended): the code performs no status check, so `completed` is
not terminal at the ledger level: a `CompleteOrder` call on an order
whose status is already `completed`, all of whose line items exist with
sufficient stock, succeeds again — it decrements inventory again (the
total history sum drops by the sum of requested quantities, i.e. new
`SaleCompleted` entries are appended) instead of performing no
stock-affecting transition; the `processing`-status precondition is
enforced only by callers. -/
theorem C2_completed_order_not_terminal (s : Store) (oid : String) (now : Nat)
    (o : Order) (ups : List ItemUpdate)
    (ho : getDoc s.orders oid = some o)
    (hstatus : o.status = some "completed")
    (hc : check_order_items s o.ingredients = Except.ok ups) :
    (complete_order s oid now).2.1 = true ∧
    totalHistSum (complete_order s oid now).1 =
      totalHistSum s - ((o.ingredients.map (fun i => i.quantity)).sum) := by
  obtain ⟨hups, hfacts⟩ := check_order_items_ok s o.ingredients ups hc
  have hco := complete_order_ok s oid now o ups ho hc
  constructor
  · rw [hco]
  · have step1 : totalHistSum (complete_order s oid now).1 =
        totalHistSum (apply_stock_updates complete_alert_msg now "Venta Completada"
          ("Venta ID: " ++ oid) s [] ups).1 := by
      rw [hco]
      try rfl
    rw [step1, apply_stock_updates_total, hups, sum_neg_staged]
    ring

/-- C2 witness: the amended theorem at the counterexample store — the
already-completed order is completed again, dropping the history sum by
the requested quantity 1. -/
theorem C2_completed_order_witness :
    (complete_order ⟨[("a", ⟨some "A", some 5, none, none, none⟩)], [("a", [])],
      [("o1", ⟨some "T", none, [⟨"a", some "A", 1, none, none⟩], some "completed",
        some 0, some 0, none, none, none⟩)]⟩ "o1" 3).2.1 = true ∧
    totalHistSum (complete_order ⟨[("a", ⟨some "A", some 5, none, none, none⟩)],
      [("a", [])], [("o1", ⟨some "T", none, [⟨"a", some "A", 1, none, none⟩],
        some "completed", some 0, some 0, none, none, none⟩)]⟩ "o1" 3).1 = -1 := by
  have h := C2_completed_order_not_terminal
    ⟨[("a", ⟨some "A", some 5, none, none, none⟩)], [("a", [])],
     [("o1", ⟨some "T", none, [⟨"a", some "A", 1, none, none⟩], some "completed",
       some 0, some 0, none, none, none⟩)]⟩ "o1" 3
    ⟨some "T", none, [⟨"a", some "A", 1, none, none⟩], some "completed",
     some 0, some 0, none, none, none⟩
    [{ ref := "a", new_quantity := 4,
       item_data := ⟨some "A", some 5, none, none, none⟩, ing_quantity := 1 }]
    rfl rfl rfl
  refine ⟨h.1, ?_⟩
  rw [h.2]
  rfl

/-- C7: for every `CompleteOrder` call that passes validation, the call
succeeds; the total history sum drops by exactly the sum of the order's
requested quantities (the newly appended entries sum to the negated
requested total); the order's status becomes `completed` with
`completed_at` set to the call's timestamp; validation guarantees no
resulting quantity is negative (boundary `requested = current` is valid
and yields exactly 0); and each line item occurring once in the order has
its document's quantity decremented by exactly its requested quantity. -/
theorem C7_successful_completion (s : Store) (oid : String) (now : Nat)
    (o : Order) (ups : List ItemUpdate)
    (ho : getDoc s.orders oid = some o)
    (hc : check_order_items s o.ingredients = Except.ok ups) :
    (complete_order s oid now).2.1 = true ∧
    totalHistSum (complete_order s oid now).1 =
      totalHistSum s - ((o.ingredients.map (fun i => i.quantity)).sum) ∧
    (∃ o2, getDoc (complete_order s oid now).1.orders oid = some o2 ∧
      o2.status = some "completed" ∧ o2.completed_at = some now) ∧
    (∀ ing ∈ o.ingredients, 0 ≤ currentOf s ing.id - ing.quantity) ∧
    (∀ ing ∈ o.ingredients,
      o.ingredients.filter (fun j => j.id = ing.id) = [ing] →
      ∃ it, getDoc s.inventory ing.id = some it ∧
        getDoc (complete_order s oid now).1.inventory ing.id =
          some { it with quantity := some (it.quantity.getD 0 - ing.quantity) }) := by
  obtain ⟨hups, hfacts⟩ := check_order_items_ok s o.ingredients ups hc
  have hco := complete_order_ok s oid now o ups ho hc
  refine ⟨by rw [hco], ?_, ?_, ?_, ?_⟩
  · have step1 : totalHistSum (complete_order s oid now).1 =
        totalHistSum (apply_stock_updates complete_alert_msg now "Venta Completada"
          ("Venta ID: " ++ oid) s [] ups).1 := by
      rw [hco]
      try rfl
    rw [step1, apply_stock_updates_total, hups, sum_neg_staged]
    ring
  · have step1 : (complete_order s oid now).1.orders =
        updateDoc (apply_stock_updates complete_alert_msg now "Venta Completada"
          ("Venta ID: " ++ oid) s [] ups).1.orders oid
          (fun o2 => { o2 with status := some "completed", completed_at := some now }) := by
      rw [hco]
      try rfl
    rw [step1, getDoc_updateDoc_self, apply_stock_updates_orders, ho]
    exact ⟨_, rfl, rfl, rfl⟩
  · intro ing hmem
    have := (hfacts ing hmem).2
    omega
  · intro ing hmem hfilter
    obtain ⟨it, hit⟩ := Option.isSome_iff_exists.mp (hfacts ing hmem).1
    refine ⟨it, hit, ?_⟩
    have step1 : getDoc (complete_order s oid now).1.inventory ing.id =
        getDoc (apply_stock_updates complete_alert_msg now "Venta Completada"
          ("Venta ID: " ++ oid) s [] ups).1.inventory ing.id := by
      rw [hco]
      try rfl
    rw [step1, apply_stock_updates_inventory, hups]
    have hf2 : ((o.ingredients.map (stagedUpdateOf s)).filter
        (fun u => u.ref = ing.id)) = [stagedUpdateOf s ing] := by
      rw [filter_map_staged, hfilter]
      rfl
    rw [applyQ_single _ _ _ _ hf2, hit]
    simp [stagedUpdateOf, currentOf, hit]

/-- C7 witness: boundary case at a concrete store — the order requests
exactly the available quantity 2; the call succeeds and the item's
quantity lands on exactly 0. -/
theorem C7_boundary_witness :
    (complete_order ⟨[("a", ⟨some "A", some 2, none, none, none⟩)], [("a", [])],
      [("o", ⟨some "T", none, [⟨"a", some "A", 2, none, none⟩], some "processing",
        some 0, none, none, none, none⟩)]⟩ "o" 9).2.1 = true ∧
    getDoc (complete_order ⟨[("a", ⟨some "A", some 2, none, none, none⟩)],
      [("a", [])], [("o", ⟨some "T", none, [⟨"a", some "A", 2, none, none⟩],
        some "processing", some 0, none, none, none, none⟩)]⟩ "o" 9).1.inventory "a" =
      some ⟨some "A", some 0, none, none, none⟩ := by
  have h := C7_successful_completion
    ⟨[("a", ⟨some "A", some 2, none, none, none⟩)], [("a", [])],
     [("o", ⟨some "T", none, [⟨"a", some "A", 2, none, none⟩], some "processing",
       some 0, none, none, none, none⟩)]⟩ "o" 9
    ⟨some "T", none, [⟨"a", some "A", 2, none, none⟩], some "processing",
     some 0, none, none, none, none⟩
    [{ ref := "a", new_quantity := 0,
       item_data := ⟨some "A", some 2, none, none, none⟩, ing_quantity := 2 }]
    rfl rfl
  refine ⟨h.1, ?_⟩
  obtain ⟨it, hit, hres⟩ := h.2.2.2.2 ⟨"a", some "A", 2, none, none⟩ (by simp) rfl
  have hit2 : it = ⟨some "A", some 2, none, none, none⟩ := by
    have heval : getDoc (⟨[("a", ⟨some "A", some 2, none, none, none⟩)], [("a", [])],
        [("o", ⟨some "T", none, [⟨"a", some "A", 2, none, none⟩], some "processing",
          some 0, none, none, none, none⟩)]⟩ : Store).inventory "a" =
        some ⟨some "A", some 2, none, none, none⟩ := rfl
    rw [heval] at hit
    exact (Option.some.inj hit).symm
  subst hit2
  exact hres.trans rfl

/-! ### Invariant preservation (claim C3) -/

theorem histSumAt_congr (s1 s2 : Store) (id : String) (h : s1.history = s2.history) :
    histSumAt s1 id = histSumAt s2 id := by
  unfold histSumAt getHist
  rw [h]

theorem currentOf_congr (s1 s2 : Store) (id : String) (h : s1.inventory = s2.inventory) :
    currentOf s1 id = currentOf s2 id := by
  unfold currentOf
  rw [h]

theorem complete_atomic_ok_shape (s : Store) (oid : String) (now : Nat)
    (r : Store × String × List String)
    (h : _complete_order_atomic s oid now = Except.ok r) :
    ∃ o ups, getDoc s.orders oid = some o ∧
      check_order_items s o.ingredients = Except.ok ups ∧
      r.1.history = (apply_stock_updates complete_alert_msg now "Venta Completada"
        ("Venta ID: " ++ oid) s [] ups).1.history ∧
      r.1.inventory = (apply_stock_updates complete_alert_msg now "Venta Completada"
        ("Venta ID: " ++ oid) s [] ups).1.inventory := by
  unfold _complete_order_atomic at h
  cases hg : getDoc s.orders oid with
  | none => rw [hg] at h; cases h
  | some o =>
    rw [hg] at h
    dsimp only at h
    cases hcc : check_order_items s o.ingredients with
    | error e => rw [hcc] at h; cases h
    | ok ups =>
      rw [hcc] at h
      dsimp only at h
      injection h with h1
      subst h1
      exact ⟨o, ups, rfl, hcc, rfl, rfl⟩

theorem direct_atomic_ok_shape (s : Store) (items : List Ingredient) (sid : String)
    (pd : Payment) (now : Nat) (r : Store × String × List String)
    (h : _process_direct_sale_atomic s items sid pd now = Except.ok r) :
    ∃ prep, check_sold_items s ⟨[], [], 0⟩ items = Except.ok prep ∧
      r.1.history = (apply_stock_updates direct_alert_msg now "Venta Directa"
        ("ID Venta: " ++ sid) s [] prep.items_to_update).1.history ∧
      r.1.inventory = (apply_stock_updates direct_alert_msg now "Venta Directa"
        ("ID Venta: " ++ sid) s [] prep.items_to_update).1.inventory := by
  unfold _process_direct_sale_atomic at h
  cases hcc : check_sold_items s ⟨[], [], 0⟩ items with
  | error e => rw [hcc] at h; cases h
  | ok prep =>
    rw [hcc] at h
    dsimp only at h
    injection h with h1
    subst h1
    exact ⟨prep, rfl, rfl, rfl⟩

theorem save_inventory_item_other (s : Store) (data : InventoryItem) (cid : String)
    (n : Bool) (det : Option String) (now : Nat) (id : String) (hne : cid ≠ id) :
    getHist (save_inventory_item s data cid n det now) id = getHist s id ∧
    getDoc (save_inventory_item s data cid n det now).inventory id =
      getDoc s.inventory id := by
  constructor
  · unfold save_inventory_item
    rw [getHist_appendHist_ne _ _ _ _ hne]
    rfl
  · unfold save_inventory_item
    rw [appendHist_inventory]
    exact getDoc_setDoc_ne _ _ _ _ hne

theorem save_preserves_inv (s : Store) (data : InventoryItem) (cid : String)
    (n : Bool) (det : Option String) (now : Nat) (id : String) (init : Int)
    (hne : cid ≠ id) (hinv : histSumAt s id = currentOf s id - init) :
    histSumAt (save_inventory_item s data cid n det now) id =
      currentOf (save_inventory_item s data cid n det now) id - init := by
  obtain ⟨h1, h2⟩ := save_inventory_item_other s data cid n det now id hne
  calc histSumAt (save_inventory_item s data cid n det now) id
      = histSumAt s id := by unfold histSumAt; rw [h1]
    _ = currentOf s id - init := hinv
    _ = currentOf (save_inventory_item s data cid n det now) id - init := by
        unfold currentOf; rw [h2]

theorem save_establishes_inv (s : Store) (data : InventoryItem) (cid : String)
    (n : Bool) (det : Option String) (now : Nat)
    (hdoc : getDoc s.inventory cid = none) (hh : getHist s cid = []) :
    histSumAt (save_inventory_item s data cid n det now) cid =
      currentOf (save_inventory_item s data cid n det now) cid - 0 := by
  have h1 := save_item_history s data cid n det now
  have h2 := save_item_inventory s data cid n det now
  unfold histSumAt currentOf
  rw [h1, hh, h2, hdoc]
  cases data.quantity <;> simp

/-- Core of the preservation argument, shared by both sale paths: if the
staged updates are the staging records of a line-item list mentioning
`id` at most once, and every staged item passed validation, applying them
preserves the history-sum invariant of `id`. -/
theorem asu_preserves_inv (mk : InventoryItem → Int → String) (now : Nat)
    (t d : String) (s : Store) (l : List Ingredient) (id : String) (init : Int)
    (hfacts : ∀ ing ∈ l, (getDoc s.inventory ing.id).isSome ∧
      ¬ (currentOf s ing.id < ing.quantity))
    (hlen : (l.filter (fun ing => ing.id = id)).length ≤ 1)
    (hinv : histSumAt s id = currentOf s id - init) :
    histSumAt (apply_stock_updates mk now t d s [] (l.map (stagedUpdateOf s))).1 id =
      currentOf (apply_stock_updates mk now t d s [] (l.map (stagedUpdateOf s))).1 id -
        init := by
  cases hf : l.filter (fun ing => ing.id = id) with
  | nil =>
    have hmatch : ∀ u ∈ l.map (stagedUpdateOf s), u.ref ≠ id := by
      intro u hu
      obtain ⟨ing, hing, rfl⟩ := List.mem_map.mp hu
      intro hrefl
      have hmemf : ing ∈ l.filter (fun ing => ing.id = id) :=
        List.mem_filter.mpr ⟨hing, by simpa [stagedUpdateOf] using hrefl⟩
      simp [hf] at hmemf
    have h1 : getHist (apply_stock_updates mk now t d s []
        (l.map (stagedUpdateOf s))).1 id = getHist s id := by
      rw [apply_stock_updates_hist]
      have hfe : (l.map (stagedUpdateOf s)).filter (fun u => u.ref = id) = [] :=
        List.filter_eq_nil_iff.mpr (by intro u hu; simpa using hmatch u hu)
      rw [hfe]
      simp
    have h2 : getDoc (apply_stock_updates mk now t d s []
        (l.map (stagedUpdateOf s))).1.inventory id = getDoc s.inventory id := by
      rw [apply_stock_updates_inventory, applyQ_no_match _ _ _ hmatch]
    calc histSumAt (apply_stock_updates mk now t d s [] (l.map (stagedUpdateOf s))).1 id
        = histSumAt s id := by unfold histSumAt; rw [h1]
      _ = currentOf s id - init := hinv
      _ = currentOf (apply_stock_updates mk now t d s []
            (l.map (stagedUpdateOf s))).1 id - init := by
          unfold currentOf; rw [h2]
  | cons ing tail =>
    cases tail with
    | cons ing2 tail2 => rw [hf] at hlen; simp at hlen
    | nil =>
      have hmemf : ing ∈ l.filter (fun j => j.id = id) := by
        rw [hf]
        simp
      have hmem : ing ∈ l := (List.mem_filter.mp hmemf).1
      have hingid : ing.id = id := by
        simpa using (List.mem_filter.mp hmemf).2
      obtain ⟨it, hit⟩ := Option.isSome_iff_exists.mp (hfacts ing hmem).1
      have hfups : (l.map (stagedUpdateOf s)).filter (fun u => u.ref = id) =
          [stagedUpdateOf s ing] := by
        rw [filter_map_staged]
        have hf2 : l.filter (fun j => j.id = id) = [ing] := hf
        rw [hf2]
        rfl
      have h1 : getHist (apply_stock_updates mk now t d s []
          (l.map (stagedUpdateOf s))).1 id =
          getHist s id ++
            [{ timestamp := now, type := t,
               quantity_change := some (-(ing.quantity)), details := d }] := by
        rw [apply_stock_updates_hist, hfups]
        simp [stagedUpdateOf]
      have h2 : getDoc (apply_stock_updates mk now t d s []
          (l.map (stagedUpdateOf s))).1.inventory id =
          some { it with quantity := some (currentOf s id - ing.quantity) } := by
        rw [apply_stock_updates_inventory, applyQ_single _ _ _ _ hfups, ← hingid, hit]
        simp [stagedUpdateOf, hingid]
      have hs1 : histSumAt (apply_stock_updates mk now t d s []
          (l.map (stagedUpdateOf s))).1 id = histSumAt s id - ing.quantity := by
        unfold histSumAt
        rw [h1]
        simp only [List.map_append, List.sum_append, List.map_cons, List.map_nil,
          List.sum_cons, List.sum_nil, Option.getD_some]
        omega
      have hs2 : currentOf (apply_stock_updates mk now t d s []
          (l.map (stagedUpdateOf s))).1 id = currentOf s id - ing.quantity := by
        unfold currentOf
        rw [h2]
        rfl
      rw [hs1, hs2, hinv]
      ring

theorem complete_order_preserves_inv (s : Store) (oid : String) (now : Nat)
    (id : String) (init : Int)
    (hcond : touchesAtMostOnce s (Op.completeOrder oid now) id = true)
    (hinv : histSumAt s id = currentOf s id - init) :
    histSumAt (complete_order s oid now).1 id =
      currentOf (complete_order s oid now).1 id - init := by
  cases hres : _complete_order_atomic s oid now with
  | error e =>
    rw [complete_order_err s oid now e hres]
    exact hinv
  | ok r =>
    obtain ⟨o, ups, ho, hcc, hhist, hinvent⟩ :=
      complete_atomic_ok_shape s oid now r hres
    have hstore : (complete_order s oid now).1 = r.1 := by
      simp [complete_order, hres]
    obtain ⟨hups, hfacts⟩ := check_order_items_ok s o.ingredients ups hcc
    have hlen : (o.ingredients.filter (fun ing => ing.id = id)).length ≤ 1 := by
      simp only [touchesAtMostOnce, ho, decide_eq_true_eq] at hcond
      exact hcond
    rw [hstore, histSumAt_congr r.1 _ id hhist, currentOf_congr r.1 _ id hinvent]
    rw [hups] at hhist hinvent ⊢
    exact asu_preserves_inv complete_alert_msg now "Venta Completada"
      ("Venta ID: " ++ oid) s o.ingredients id init hfacts hlen hinv

theorem direct_sale_preserves_inv (s : Store) (items : List Ingredient)
    (sid : String) (pay : Option Payment) (now : Nat) (id : String) (init : Int)
    (hcond : touchesAtMostOnce s (Op.directSale items sid pay now) id = true)
    (hinv : histSumAt s id = currentOf s id - init) :
    histSumAt (process_direct_sale s items sid pay now).1 id =
      currentOf (process_direct_sale s items sid pay now).1 id - init := by
  cases hres : _process_direct_sale_atomic s items sid
      (pay.getD { method := some "efectivo", customer := some "Cliente General" }) now with
  | error e =>
    rw [process_direct_sale_err s items sid pay now e hres]
    exact hinv
  | ok r =>
    obtain ⟨prep, hcc, hhist, hinvent⟩ :=
      direct_atomic_ok_shape s items sid _ now r hres
    have hstore : (process_direct_sale s items sid pay now).1 = r.1 := by
      simp [process_direct_sale, hres]
    obtain ⟨hups, _, _, hfacts2⟩ := check_sold_items_ok s items ⟨[], [], 0⟩ prep hcc
    have hfacts : ∀ ing ∈ items, (getDoc s.inventory ing.id).isSome ∧
        ¬ (currentOf s ing.id < ing.quantity) := hfacts2
    have hlen : (items.filter (fun ing => ing.id = id)).length ≤ 1 := by
      simp only [touchesAtMostOnce, decide_eq_true_eq] at hcond
      exact hcond
    simp only [List.nil_append] at hups
    rw [hstore, histSumAt_congr r.1 _ id hhist, currentOf_congr r.1 _ id hinvent]
    rw [hups] at hhist hinvent ⊢
    exact asu_preserves_inv direct_alert_msg now "Venta Directa"
      ("ID Venta: " ++ sid) s items id init hfacts hlen hinv

theorem applyOp_preserves_inv (s : Store) (o : Op) (id : String) (init : Int)
    (hcond : touchesAtMostOnce s o id = true)
    (hinv : histSumAt s id = currentOf s id - init) :
    histSumAt (applyOp s o) id = currentOf (applyOp s o) id - init := by
  cases o with
  | saveItem data cid n det now =>
    have hne : cid ≠ id := by
      simpa [touchesAtMostOnce] using hcond
    exact save_preserves_inv s data cid n det now id init hne hinv
  | completeOrder oid now =>
    exact complete_order_preserves_inv s oid now id init hcond hinv
  | directSale items sid pay now =>
    exact direct_sale_preserves_inv s items sid pay now id init hcond hinv

/-- C3 counterexample: create item `x` with quantity 5, then save it
again with quantity 2 (a `ManualAdjustment`).  The history records
`quantity_change` values 5 and 2 (the absolute post-write quantities), so
their sum is 7, while `currentQuantity` is 2: the claimed invariant fails
both for `initialQuantity = 0` (item created from nothing) and for
`initialQuantity = 5` (quantity at creation). -/
theorem C3_counterexample :
    histSumAt (applyOps ⟨[], [], []⟩
      [Op.saveItem ⟨some "X", some 5, none, none, none⟩ "x" true none 0,
       Op.saveItem ⟨none, some 2, none, none, none⟩ "x" false none 1]) "x" = 7 ∧
    currentOf (applyOps ⟨[], [], []⟩
      [Op.saveItem ⟨some "X", some 5, none, none, none⟩ "x" true none 0,
       Op.saveItem ⟨none, some 2, none, none, none⟩ "x" false none 1]) "x" = 2 ∧
    (7 : Int) ≠ 2 - 0 ∧ (7 : Int) ≠ 2 - 5 := by
  exact ⟨rfl, rfl, by decide, by decide⟩

/-- C3 (amended): the history-sum invariant — `Σ quantity_change` over an
item's history equals `currentQuantity − initialQuantity` (with
`initialQuantity = 0`, the quantity before the item existed) — is
established by the creating `SaveItem` and preserved by every
`CompleteOrder` and `ProcessDirectSale` call (successful or not) and by
`SaveItem` calls on other documents, provided each call's line-item list
mentions the item at most once.  It is not an invariant of arbitrary
operation sequences: a later `SaveItem` on the same item records the
absolute post-write quantity instead of a delta (see the counterexample),
and a call listing the item twice commits only the last staged decrement
while appending both history entries (claim C10). -/
theorem C3_history_sum_invariant :
    (∀ (s : Store) (data : InventoryItem) (cid : String) (n : Bool)
      (det : Option String) (now : Nat),
      getDoc s.inventory cid = none → getHist s cid = [] →
      histSumAt (save_inventory_item s data cid n det now) cid =
        currentOf (save_inventory_item s data cid n det now) cid - 0) ∧
    (∀ (init : Int) (id : String) (ops : List Op) (s : Store),
      histSumAt s id = currentOf s id - init →
      safeOps s id ops = true →
      histSumAt (applyOps s ops) id = currentOf (applyOps s ops) id - init) := by
  constructor
  · exact save_establishes_inv
  · intro init id ops
    induction ops with
    | nil => exact fun s hinv _ => hinv
    | cons o rest ih =>
      intro s hinv hsafe
      simp only [safeOps, Bool.and_eq_true] at hsafe
      have hstep := applyOp_preserves_inv s o id init hsafe.1 hinv
      have := ih (applyOp s o) hstep hsafe.2
      simpa [applyOps] using this

/-- C3 witness: both parts applied concretely — creating item `a` with
quantity 5 establishes the invariant, and a direct sale of 2 units
preserves it. -/
theorem C3_invariant_witness :
    histSumAt (save_inventory_item ⟨[], [], []⟩ ⟨some "A", some 5, none, none, none⟩
      "a" true none 0) "a" =
      currentOf (save_inventory_item ⟨[], [], []⟩ ⟨some "A", some 5, none, none, none⟩
        "a" true none 0) "a" - 0 ∧
    histSumAt (applyOps ⟨[("a", ⟨some "A", some 5, none, none, none⟩)],
      [("a", [⟨0, "Stock Inicial", some 5, "Item creado en el sistema."⟩])], []⟩
      [Op.directSale [⟨"a", some "A", 2, none, none⟩] "V-1" none 1]) "a" =
      currentOf (applyOps ⟨[("a", ⟨some "A", some 5, none, none, none⟩)],
        [("a", [⟨0, "Stock Inicial", some 5, "Item creado en el sistema."⟩])], []⟩
        [Op.directSale [⟨"a", some "A", 2, none, none⟩] "V-1" none 1]) "a" - 0 := by
  constructor
  · exact C3_history_sum_invariant.1 ⟨[], [], []⟩ ⟨some "A", some 5, none, none, none⟩
      "a" true none 0 rfl rfl
  · exact C3_history_sum_invariant.2 0 "a"
      [Op.directSale [⟨"a", some "A", 2, none, none⟩] "V-1" none 1]
      ⟨[("a", ⟨some "A", some 5, none, none, none⟩)],
       [("a", [⟨0, "Stock Inicial", some 5, "Item creado en el sistema."⟩])], []⟩
      rfl rfl

end Rapitienda
